import Mathlib

/-!
Verification of the session-lifecycle core of the lambda-upload-S3 repository
(packages `sessions`, `password` and the `redis` client wrapper).

The Go code is shallowly embedded: the Redis key-value store is a function
from keys to optional typed values together with the TTL that was set at the
last write; the relational database is a record of user rows, role rows and
session-summary rows; every stateful Go function becomes a Lean function that
returns the updated stores next to its Go return value.  Store operations can
be made to fail through an explicit fault table (`Faults`), matching the
unclassified transport errors of the real client; `redis.Nil` (key absent) is
the `Option` `none` on reads, surfaced as the distinguished error `Err.redisNil`
exactly where the Go code uses `.Bytes()` on a raw `Get`.

The cryptographic password hash (`password.Hash`, sha512-crypt) and the JWT
signing of `createSessionToken` are abstracted as function parameters of an
environment `Env`; everything the claims depend on flows through their result
values only.  `json.Marshal`/`json.Unmarshal` of the repository's own record
types are modelled as the identity on typed values (marshalling these types
never fails in Go either); unmarshalling a value of the wrong shape yields the
zero value of the target type, which is what `encoding/json` does when no
field names match.
-/

namespace Sessions

/-- Error values crossing the embedded functions: the four named error types of
`sessions/errors.go`, the `redis.Nil` sentinel of the go-redis client, the
`errors.New("password hash failed")` wrapper of `Create`, `sql.ErrNoRows` from
a `QueryRow` scan, a `strconv.Atoi` failure, and injected unclassified
store/transport errors. -/
inductive Err where
  | userNotFound
  | userLocked
  | passwordMismatch
  | nonUniqueToken
  | redisNil
  | hashFailed
  | sqlNoRows
  | atoiFailed
  | store (n : Nat)
  deriving DecidableEq, Repr

/-- Constants of `sessions` (save.go / secret.go part two / delete.go). -/
def sessionTTL : Nat := 960

def userDeleted : Nat := 2

def userLocked : Nat := 4

def userLockedLogin : Nat := 16

def maxLoginAttempts : Nat := 6

def keyActiveClinicianList : String := "active_clinician_list"

/-- `redis.Session`, the value stored under a session token.  `Roles` is the
`map[string]string` of role-id (decimal string) to role name, kept as an
association list. -/
structure Session where
  userID : Int
  roles : List (String × String)
  created : Int
  timeout : Int
  token : String
  deriving DecidableEq, Repr

/-- The zero `redis.Session` produced by `Session{}` in Go. -/
def zeroSession : Session := ⟨0, [], 0, 0, ""⟩

/-- `sessions.SessionData`: embeds `redis.Session` and adds the user status and
the user-creation timestamp. -/
structure SessionData where
  sess : Session
  status : Nat
  userCreated : Int
  deriving DecidableEq, Repr

/-- An element of the per-user session list: `sessions.UserSession`. -/
structure UserSession where
  token : String
  roles : List Int
  deriving DecidableEq, Repr

/-- `sessions.UserSessions`, the value stored under the user-hash key. -/
structure UserSessions where
  userIDHash : String
  sessions : List UserSession
  deriving DecidableEq, Repr

/-- The zero `UserSessions` value (`var userSessions UserSessions`). -/
def zeroUserSessions : UserSessions := ⟨"", []⟩

/-- A typed value in the key-value store: either a marshalled `SessionData`
(session-record key) or a marshalled `UserSessions` (user-hash index key). -/
inductive Val where
  | sess (d : SessionData)
  | idx (u : UserSessions)
  deriving DecidableEq, Repr

/-- Unmarshalling stored bytes into `SessionData`: the right shape gives the
stored record back; a `UserSessions` document has no matching field names so
`json.Unmarshal` fills the zero value. -/
def unmarshalSessionData : Val → SessionData
  | Val.sess d => d
  | Val.idx _ => ⟨zeroSession, 0, 0⟩

/-- Unmarshalling stored bytes into `UserSessions`, symmetrically. -/
def unmarshalUserSessions : Val → UserSessions
  | Val.idx u => u
  | Val.sess _ => zeroUserSessions

/-- The Redis database: each key holds a typed value and the TTL (seconds)
given to the last `Set` on that key. -/
structure Redis where
  kv : String → Option (Val × Nat)

/-- Fault table for the Redis client: for each operation, the keys on which it
fails and the unclassified error it returns there. -/
structure Faults where
  getE : String → Option Err
  setE : String → Option Err
  delE : String → Option Err
  existsE : String → Option Err

/-- The fault-free client. -/
def noFaults : Faults :=
  ⟨fun _ => none, fun _ => none, fun _ => none, fun _ => none⟩

/-- `redisClient.Get(k)`: an injected fault, or the stored value (`none` is the
`redis.Nil` outcome). -/
def rget (f : Faults) (r : Redis) (k : String) : Except Err (Option Val) :=
  match f.getE k with
  | some e => Except.error e
  | none => Except.ok ((r.kv k).map Prod.fst)

/-- `redisClient.Get(k).Bytes()`: an absent key surfaces as the `redis.Nil`
error, matching the go-redis `StringCmd.Bytes` contract. -/
def rgetBytes (f : Faults) (r : Redis) (k : String) : Except Err Val :=
  match rget f r k with
  | Except.error e => Except.error e
  | Except.ok none => Except.error Err.redisNil
  | Except.ok (some v) => Except.ok v

/-- `redisClient.Set(k, v, ttl)`: on a fault the store is unchanged and the
error is returned; otherwise the key is overwritten. -/
def rset (f : Faults) (r : Redis) (k : String) (v : Val) (ttl : Nat) :
    Redis × Option Err :=
  match f.setE k with
  | some e => (r, some e)
  | none => (⟨fun k2 => if k2 = k then some (v, ttl) else r.kv k2⟩, none)

/-- `redisClient.Del(k)`. -/
def rdel (f : Faults) (r : Redis) (k : String) : Redis × Option Err :=
  match f.delE k with
  | some e => (r, some e)
  | none => (⟨fun k2 => if k2 = k then none else r.kv k2⟩, none)

/-- `redisClient.Exists(k).Result()`: the count (0 or 1) and the error, the
count being 0 when the call fails. -/
def rexists (f : Faults) (r : Redis) (k : String) : Nat × Option Err :=
  match f.existsE k with
  | some e => (0, some e)
  | none => (if (r.kv k).isSome then 1 else 0, none)

/-- `Client.GetSession` (redis package): `redis.Nil` yields the zero session
with a nil error; otherwise the stored record is unmarshalled into a
`redis.Session` and its `Token` field is set to the queried token. -/
def GetSession (f : Faults) (r : Redis) (token : String) : Except Err Session :=
  match rget f r token with
  | Except.error e => Except.error e
  | Except.ok none => Except.ok zeroSession
  | Except.ok (some v) =>
      Except.ok { (unmarshalSessionData v).sess with token := token }

/-- `password.SecureCompare`: equal lengths compare the bytes, a length
mismatch compares `actual` against itself and returns false. -/
def SecureCompare (given actual : String) : Bool :=
  if given.length = actual.length then given == actual else false

/-- One user row of the `users` table. -/
structure UserRow where
  userID : Int
  username : String
  systemCode : String
  status : Nat
  password : String
  created : Int
  failedLogins : Nat
  lastLogin : Int
  loginCount : Nat
  deriving DecidableEq, Repr

/-- One row of the `session_summaries` table.  `ended` is NULL until the row
is closed; `hardLogout` starts false. -/
structure SummaryRow where
  token : String
  userID : Int
  started : Int
  lastActive : Int
  ended : Option Int
  hardLogout : Bool
  created : Int
  deriving DecidableEq, Repr

/-- The relational database: the `users` table, the joined role assignment
rows (`role_id`, `role_name`) per user id, and the `session_summaries` table.
Queries and DML succeed in the model; the claims under verification inject
failures only into the key-value store. -/
structure DB where
  users : List UserRow
  userRoles : List (Int × List (Int × String))
  summaries : List SummaryRow

/-- The result struct scanned by `GetUserForAuth`. -/
structure UserForAuth where
  userID : Int
  status : Nat
  storedPassword : String
  created : Int
  deriving DecidableEq, Repr

/-- `sessions.GetUserForAuth`: scans every row matching (username,
system_code) into the same struct — the last row wins — and reports
`UserNotFound` when the scanned user id is still zero. -/
def GetUserForAuth (db : DB) (username systemCode : String) :
    Except Err UserForAuth :=
  let rows := db.users.filter fun u =>
    u.username = username ∧ u.systemCode = systemCode
  let user : UserForAuth := rows.foldl
    (fun _ r => ⟨r.userID, r.status, r.password, r.created⟩) ⟨0, 0, "", 0⟩
  if user.userID = 0 then Except.error Err.userNotFound else Except.ok user

/-- `sessions.ValidateUserStatus`: the deleted bit is reported as
`UserNotFound`; either lock bit as `UserLockedError`. -/
def ValidateUserStatus (user : UserForAuth) : Except Err Unit :=
  if user.status &&& userDeleted > 0 then Except.error Err.userNotFound
  else if user.status &&& userLocked > 0 ∨ user.status &&& userLockedLogin > 0
    then Except.error Err.userLocked
  else Except.ok ()

/-- Setting one key of a `map[string]string` association list: overwrite an
existing binding, otherwise append. -/
def mapSet (m : List (String × String)) (k v : String) :
    List (String × String) :=
  if m.any fun p => p.1 = k then
    m.map fun p => if p.1 = k then (k, v) else p
  else m ++ [(k, v)]

/-- `sessions.getUserRoles`: folds the joined (role_id, name) rows into a map
keyed by `strconv.Itoa(roleID)`. -/
def getUserRoles (db : DB) (userID : Int) : List (String × String) :=
  let rows := ((db.userRoles.find? fun p => p.1 = userID).map Prod.snd).getD []
  rows.foldl (fun m row => mapSet m (toString row.1) row.2) []

/-- `sessions.updateUser`.  Success resets the failed-login counter and bumps
the login statistics.  Failure runs the MySQL update
`failed_logins = failed_logins + 1,
 status = status | IF(failed_logins >= 6, 16, 0)`;
MySQL evaluates single-table SET assignments left to right, so the `IF` reads
the already-incremented counter. -/
def updateUserRow (now : Int) (success : Bool) (u : UserRow) : UserRow :=
  if success then
    { u with
      lastLogin := now,
      loginCount := u.loginCount + 1,
      failedLogins := 0 }
  else
    { u with
      failedLogins := u.failedLogins + 1,
      status := u.status |||
        (if maxLoginAttempts ≤ u.failedLogins + 1 then userLockedLogin
         else 0) }

def updateUser (db : DB) (now : Int) (userID : Int) (success : Bool) : DB :=
  { db with users := db.users.map (fun u =>
      if u.userID = userID then updateUserRow now success u else u) }

/-- `sessions.CreateSessionSummary`: inserts the audit row with
`started = last_active = data.Created` and `created = UNIX_TIMESTAMP()`. -/
def CreateSessionSummary (db : DB) (now : Int) (token : String)
    (data : SessionData) : DB :=
  { db with summaries := db.summaries ++
      [⟨token, data.sess.userID, data.sess.created, data.sess.created,
        none, false, now⟩] }

/-- `sessions.CloseSessionSummary`: sets `ended = UNIX_TIMESTAMP()` and
`hard_logout = 1` on every row with the given token. -/
def closeRow (now : Int) (token : String) (row : SummaryRow) : SummaryRow :=
  if row.token = token then { row with ended := some now, hardLogout := true }
  else row

def CloseSessionSummary (db : DB) (now : Int) (token : String) : DB :=
  { db with summaries := db.summaries.map (closeRow now token) }

/-- `sessions.newSessionData`: the fresh record for an authenticated user,
`Created = time.Now().Unix()`, `Timeout = sessionTTL`; the embedded `Token`
field is left at its zero value. -/
def newSessionData (now : Int) (user : UserForAuth)
    (rolesMap : List (String × String)) : SessionData :=
  ⟨{ userID := user.userID, roles := rolesMap, created := now,
     timeout := Int.ofNat sessionTTL, token := "" },
   user.status, user.created⟩

/-- The ambient effect parameters: the sha512-crypt `password.Hash` (first
argument already rendered through `fmt.Sprint`), the JWT minting
`createSessionToken` for the caller's signing secret together with its fresh
random nonce, the current unix time, and the key-value fault table. -/
structure Env where
  hash : String → Int → Except Err String
  mkToken : SessionData → Except Err String
  now : Int
  faults : Faults

/-- `sessions.getUserHashToken` = `password.Hash(session.UserID,
session.UserCreated)`; the integer user id is rendered in decimal by
`fmt.Sprint`. -/
def getUserHashToken (env : Env) (session : SessionData) : Except Err String :=
  env.hash (toString session.sess.userID) session.userCreated

def digitsToNat : List Char → Nat → Option Nat
  | [], acc => some acc
  | c :: cs, acc =>
      if c.isDigit then digitsToNat cs (acc * 10 + (c.toNat - '0'.toNat))
      else none

/-- `strconv.Atoi` as used on the role-id keys of a session's roles map: an
optional sign followed by a non-empty run of decimal digits, anything else a
parse failure. -/
def Atoi (s : String) : Option Int :=
  match s.data with
  | [] => none
  | '-' :: rest =>
      if rest.isEmpty then none
      else (digitsToNat rest 0).map (fun n => -(n : Int))
  | l => (digitsToNat l 0).map (fun n => (n : Int))

/-- The roles-list conversion loop of `Save`: each role-id key is parsed with
`strconv.Atoi`, a parse failure aborting the call. -/
def rolesListOf : List (String × String) → Except Err (List Int)
  | [] => Except.ok []
  | (k, _) :: rest =>
      match Atoi k with
      | none => Except.error Err.atoiFailed
      | some id =>
          match rolesListOf rest with
          | Except.error e => Except.error e
          | Except.ok ids => Except.ok (id :: ids)

/-- `sessions.Save` (save.go): marshal the record; reject with
`NonUniqueToken` when the token key already exists (the `Exists` count is
checked before the `Exists` error); write the session record under the token;
recompute the user hash; load the existing index entry, `redis.Nil` starting a
fresh entry carrying the hash key; parse the role-id keys; append the new
(token, role-ids) element and rewrite the whole entry with a fresh TTL. -/
def Save (env : Env) (r : Redis) (token : String) (session : SessionData) :
    Redis × Option Err :=
  let ex := rexists env.faults r token
  if ex.1 = 1 then (r, some Err.nonUniqueToken)
  else if ex.2.isSome then (r, ex.2)
  else
    match rset env.faults r token (Val.sess session) sessionTTL with
    | (r1, some e) => (r1, some e)
    | (r1, none) =>
      match getUserHashToken env session with
      | Except.error e => (r1, some e)
      | Except.ok userHashToken =>
        let loaded : Except Err UserSessions :=
          match rgetBytes env.faults r1 userHashToken with
          | Except.error Err.redisNil =>
              Except.ok { zeroUserSessions with userIDHash := userHashToken }
          | Except.error e => Except.error e
          | Except.ok v => Except.ok (unmarshalUserSessions v)
        match loaded with
        | Except.error e => (r1, some e)
        | Except.ok userSessions =>
          match rolesListOf session.sess.roles with
          | Except.error e => (r1, some e)
          | Except.ok rolesList =>
            let userSession : UserSession := ⟨token, rolesList⟩
            let userSessions2 : UserSessions :=
              { userSessions with
                sessions := userSessions.sessions ++ [userSession] }
            rset env.faults r1 userHashToken (Val.idx userSessions2) sessionTTL

/-- `sessions.CreateTokenAndSessionData`: load the roles map, build the fresh
record, mint the signed token. -/
def CreateTokenAndSessionData (env : Env) (db : DB) (user : UserForAuth) :
    Except Err (String × SessionData) :=
  let rolesMap := getUserRoles db user.userID
  let session := newSessionData env.now user rolesMap
  match env.mkToken session with
  | Except.error e => Except.error e
  | Except.ok token => Except.ok (token, session)

/-- `sessions.Create` (secret.go part two): resolve the user, validate status,
hash and compare the password — recording the failed attempt before failing
with `PasswordMismatch` — then mint the token, save the session, record the
successful login and insert the audit row.  The updated relational and
key-value stores are returned next to the Go return value; effects of
completed steps persist when a later step fails. -/
def Create (env : Env) (db : DB) (r : Redis) (username password : String)
    (systemCode : String) : DB × Redis × Except Err String :=
  match GetUserForAuth db username systemCode with
  | Except.error e => (db, r, Except.error e)
  | Except.ok user =>
    match ValidateUserStatus user with
    | Except.error e => (db, r, Except.error e)
    | Except.ok _ =>
      match env.hash password user.created with
      | Except.error _ => (db, r, Except.error Err.hashFailed)
      | Except.ok h =>
        if ¬ SecureCompare h user.storedPassword then
          let db2 := updateUser db env.now user.userID false
          (db2, r, Except.error Err.passwordMismatch)
        else
          match CreateTokenAndSessionData env db user with
          | Except.error e => (db, r, Except.error e)
          | Except.ok (token, sessionData) =>
            match Save env r token sessionData with
            | (r2, some e) => (db, r2, Except.error e)
            | (r2, none) =>
              let db3 := updateUser db env.now user.userID true
              let db4 := CreateSessionSummary db3 env.now token sessionData
              (db4, r2, Except.ok token)

/-- `sessions.RefreshToken` (secret.go part two): load the raw record —
`.Bytes()` turns an absent key into the `redis.Nil` error — unmarshal, set
`Created = time.Now().Unix()`, re-marshal and rewrite the same key with the
full TTL.  The final guard checks `Set(...).Err() != nil` but returns the
enclosing `err` variable, which at that point holds the nil result of
`json.Marshal`; the model therefore returns no error on that branch, exactly
as the source does. -/
def RefreshToken (env : Env) (r : Redis) (token : String) :
    Redis × Option Err :=
  match rgetBytes env.faults r token with
  | Except.error e => (r, some e)
  | Except.ok v =>
    let existingSession := unmarshalSessionData v
    let existingSession2 :=
      { existingSession with sess :=
          { existingSession.sess with created := env.now } }
    let marshalErr : Option Err := none
    let setRes := rset env.faults r token (Val.sess existingSession2) sessionTTL
    if (setRes.2).isSome then (setRes.1, marshalErr) else (setRes.1, none)

/-- `sessions.deleteKey`. -/
def deleteKey (env : Env) (r : Redis) (token : String) : Redis × Option Err :=
  rdel env.faults r token

/-- `sessions.getUserCreatedByID`: `QueryRow ... LIMIT 1` scanning the created
timestamp; scanning fails with `sql.ErrNoRows` when the user id is absent. -/
def getUserCreatedByID (db : DB) (userID : Int) : Int × Option Err :=
  match db.users.find? (fun u => u.userID = userID) with
  | none => (0, some Err.sqlNoRows)
  | some u => (u.created, none)

/-- `sessions.createSessionData`: only the user id and the user-creation
timestamp are filled in, the rest stays at the zero value. -/
def createSessionData (redisSession : Session) (userCreated : Int) :
    SessionData :=
  ⟨{ zeroSession with userID := redisSession.userID }, 0, userCreated⟩

/-- `sessions.FindUserSessionsByAuthToken`: resolve the session, treat a
zero user id as the empty result, fetch the owner's creation timestamp,
recompute the user hash and load the index entry, `redis.Nil` again yielding
the zero value. -/
def FindUserSessionsByAuthToken (env : Env) (db : DB) (r : Redis)
    (token : String) : Except Err UserSessions :=
  match GetSession env.faults r token with
  | Except.error e => Except.error e
  | Except.ok redisSession =>
    if redisSession.userID = 0 then Except.ok zeroUserSessions
    else
      let uc := getUserCreatedByID db redisSession.userID
      let sessionData := createSessionData redisSession uc.1
      match uc.2 with
      | some e => Except.error e
      | none =>
        match getUserHashToken env sessionData with
        | Except.error e => Except.error e
        | Except.ok userHashToken =>
          match rgetBytes env.faults r userHashToken with
          | Except.error Err.redisNil => Except.ok zeroUserSessions
          | Except.error e => Except.error e
          | Except.ok v => Except.ok (unmarshalUserSessions v)

/-- Swapping the entries at two positions of a list, as the parallel
assignment `sessions[n-1], sessions[i] = sessions[i], sessions[n-1]` does on
the shared backing array. -/
def swapElems (l : List UserSession) (i j : Nat) : List UserSession :=
  match l[i]?, l[j]? with
  | some a, some b => (l.set i b).set j a
  | _, _ => l

/-- One iteration of the removal loop of `removeSessionFromUserSessions`: the
element now at position `i` of the shared array is compared against the
token; on a match it is swapped to position `n - 1` and the logical list is
re-sliced to the first `n - 1` elements. -/
def rmStep (token : String) (n : Nat) (st : List UserSession × Nat) (i : Nat) :
    List UserSession × Nat :=
  match st.1[i]? with
  | some x => if x.token = token then (swapElems st.1 i (n - 1), n - 1) else st
  | none => st

/-- The whole removal loop: `n` iterations over the original slice; note that
both `len(sessions)` inside the loop and the re-slicing bound refer to the
original length, while the element reads see the mutated backing array. -/
def swapRemoveAll (l : List UserSession) (token : String) : List UserSession :=
  let n := l.length
  let st := (List.range n).foldl (rmStep token n) (l, n)
  st.1.take st.2

/-- `sessions.removeSessionFromUserSessions`: swap-remove the token from the
list, then delete the index key outright when the list became empty, or
rewrite the whole entry under the stored `UserIDHash` with a fresh TTL. -/
def removeSessionFromUserSessions (env : Env) (r : Redis)
    (userSessions : UserSessions) (token : String) : Redis × Option Err :=
  let userHashToken := userSessions.userIDHash
  let userSessions2 :=
    { userSessions with sessions := swapRemoveAll userSessions.sessions token }
  if userSessions2.sessions.length = 0 then
    rdel env.faults r userHashToken
  else
    rset env.faults r userHashToken (Val.idx userSessions2) sessionTTL

/-- `sessions.Delete`: load the session — an absent key gives the zero
session, whose zero user id makes the call a successful no-op — find the
owner's index entry and swap-remove the token from it (the error of that step
is assigned to `err` but overwritten unchecked by the next statement, as in
the source), delete the session key, and close the audit row. -/
def Delete (env : Env) (db : DB) (r : Redis) (token : String) :
    DB × Redis × Option Err :=
  match GetSession env.faults r token with
  | Except.error e => (db, r, some e)
  | Except.ok session =>
    if session.userID = 0 then (db, r, none)
    else
      match FindUserSessionsByAuthToken env db r token with
      | Except.error e => (db, r, some e)
      | Except.ok userSessions =>
        let step :=
          if userSessions.sessions.length ≠ 0 then
            removeSessionFromUserSessions env r userSessions token
          else (r, none)
        match rdel env.faults step.1 token with
        | (r2, some e) => (db, r2, some e)
        | (r2, none) =>
          let db2 := CloseSessionSummary db env.now session.token
          (db2, r2, none)

/-- The inner loop of `DeleteUserSessions`: each role id equal to the
hardcoded clinician value 4 evicts the global `active_clinician_list` key. -/
def evictClinician (env : Env) : List Int → Redis → Redis × Option Err
  | [], r => (r, none)
  | id :: rest, r =>
      if id = 4 then
        match deleteKey env r keyActiveClinicianList with
        | (r2, some e) => (r2, some e)
        | (r2, none) => evictClinician env rest r2
      else evictClinician env rest r

/-- The main loop of `DeleteUserSessions`: delete each session key, run the
clinician eviction over its role ids, close its audit row, count it; any
store failure aborts with count 0 and the partial state kept. -/
def deleteSessionsLoop (env : Env) :
    List UserSession → DB → Redis → Nat → DB × Redis × Except Err Nat
  | [], db, r, n => (db, r, Except.ok n)
  | s :: rest, db, r, n =>
      match deleteKey env r s.token with
      | (r1, some e) => (db, r1, Except.error e)
      | (r1, none) =>
        match evictClinician env s.roles r1 with
        | (r2, some e) => (db, r2, Except.error e)
        | (r2, none) =>
          let db2 := CloseSessionSummary db env.now s.token
          deleteSessionsLoop env rest db2 r2 (n + 1)

/-- `sessions.DeleteUserSessions`: process every element of the index list,
then delete the index key itself and return the count. -/
def DeleteUserSessions (env : Env) (db : DB) (r : Redis)
    (userSessions : UserSessions) : DB × Redis × Except Err Nat :=
  match deleteSessionsLoop env userSessions.sessions db r 0 with
  | (db1, r1, Except.error e) => (db1, r1, Except.error e)
  | (db1, r1, Except.ok n) =>
    match deleteKey env r1 userSessions.userIDHash with
    | (r2, some e) => (db1, r2, Except.error e)
    | (r2, none) => (db1, r2, Except.ok n)

/-- `sessions.DeleteAllByUserHash`: a `redis.Nil` on the index key is logged
and treated as success; otherwise the entry is unmarshalled (the unmarshal
error variable is shadowed unchecked in the source) and every session in it
is deleted.  Marshalled entries are never the empty byte string, so the
`len(sessionBytes) == 0` guard of the source is vacuous in the model. -/
def DeleteAllByUserHash (env : Env) (db : DB) (r : Redis)
    (userHashToken : String) (_userID : Int) : DB × Redis × Option Err :=
  match rgetBytes env.faults r userHashToken with
  | Except.error Err.redisNil => (db, r, none)
  | Except.error e => (db, r, some e)
  | Except.ok v =>
    let userSessions := unmarshalUserSessions v
    match DeleteUserSessions env db r userSessions with
    | (db2, r2, Except.error e) => (db2, r2, some e)
    | (db2, r2, Except.ok _) => (db2, r2, none)

/-- Iterating `Create` with a fixed password against a fixed key-value store,
keeping the relational store: the account state after `N` consecutive login
attempts.  On the password-mismatch path the key-value store is returned
unchanged, so discarding it loses nothing. -/
def createFailN (env : Env) (r : Redis) (username password systemCode : String) :
    Nat → DB → DB
  | 0, db => db
  | k + 1, db =>
      (Create env (createFailN env r username password systemCode k db) r
        username password systemCode).1

/-! Concrete instances used to evaluate the development on closed inputs. -/

/-- A deterministic stand-in for the salted hash: it is injective on its two
arguments, which is all the sha512-crypt hash provides to the callers. -/
def hashW : String → Int → Except Err String :=
  fun s c => Except.ok (s ++ "#" ++ toString c)

def envW : Env := ⟨hashW, fun _ => Except.ok "TOK", 100, noFaults⟩

def uW : UserRow := ⟨42, "alice", "sys", 0, "Pw1#1700", 1700, 0, 0, 0⟩

def dbW : DB := ⟨[uW], [(42, [(4, "clinician"), (7, "admin")])], []⟩

def rW : Redis := ⟨fun _ => none⟩

def sdW : SessionData := ⟨⟨42, [("7", "admin")], 50, 960, ""⟩, 0, 1700⟩

def rT : Redis :=
  ⟨fun k => if k = "TOK" then some (Val.sess sdW, 960) else none⟩

def usW : UserSessions := ⟨"42#1700", [⟨"TOK", [7]⟩]⟩

def rT2 : Redis :=
  ⟨fun k =>
    if k = "TOK" then some (Val.sess sdW, 960)
    else if k = "42#1700" then some (Val.idx usW, 960)
    else none⟩

/-- Faults making the session-record rewrite of `RefreshToken` fail. -/
def faultSet : Faults :=
  { noFaults with setE := fun k => if k = "TOK" then some (Err.store 0) else none }

def envSetFail : Env := ⟨hashW, fun _ => Except.ok "TOK", 100, faultSet⟩

/-- Faults making the user-session index delete inside `Delete` fail. -/
def faultDel : Faults :=
  { noFaults with
    delE := fun k => if k = "42#1700" then some (Err.store 1) else none }

def envDelFail : Env := ⟨hashW, fun _ => Except.ok "TOK", 100, faultDel⟩

/-- Index entry used by the C3 witness: user 42 with two live sessions. -/
def usC3 : UserSessions := ⟨"42#1700", [⟨"T1", [7]⟩, ⟨"T2", [7]⟩]⟩

def rC3 : Redis :=
  ⟨fun k =>
    if k = "T1" then some (Val.sess sdW, 960)
    else if k = "42#1700" then some (Val.idx usC3, 960)
    else none⟩

/-! Bitmask helper lemmas. -/

theorem lor_sixteen_and_sixteen (a : Nat) : (a ||| 16) &&& 16 = 16 := by
  have h : (16 : Nat) = 2 ^ 4 := by norm_num
  rw [h, Nat.and_two_pow, Nat.testBit_lor]
  have h2 : (2 ^ 4 : Nat).testBit 4 = true := by decide
  rw [h2]
  simp

theorem lor_sixteen_and_two (a : Nat) (h : a &&& 2 = 0) :
    (a ||| 16) &&& 2 = 0 := by
  have h2 : (2 : Nat) = 2 ^ 1 := by norm_num
  have h16 : (16 : Nat) = 2 ^ 4 := by norm_num
  rw [h2, Nat.and_two_pow] at h ⊢
  rw [h16, Nat.testBit_lor]
  have hb : (2 ^ 4 : Nat).testBit 1 = false := by decide
  rw [hb]
  simp only [Bool.or_false]
  simpa using h

theorem lor_sixteen_and_four (a : Nat) (h : a &&& 4 = 0) :
    (a ||| 16) &&& 4 = 0 := by
  have h2 : (4 : Nat) = 2 ^ 2 := by norm_num
  have h16 : (16 : Nat) = 2 ^ 4 := by norm_num
  rw [h2, Nat.and_two_pow] at h ⊢
  rw [h16, Nat.testBit_lor]
  have hb : (2 ^ 4 : Nat).testBit 2 = false := by decide
  rw [hb]
  simp only [Bool.or_false]
  simpa using h

/-! The claims. -/

/-- C10: for every identity whose status bitmask has both the deleted bit and
either lock bit set, `ValidateUserStatus` — and therefore `Create` — returns
the NotFound error and not the Locked error: the deleted check takes
precedence, so the lock state of a deleted account is never revealed. -/
theorem deleted_shadows_locked (env : Env) (db : DB) (r : Redis)
    (username password systemCode : String) (user : UserForAuth)
    (hfind : GetUserForAuth db username systemCode = Except.ok user)
    (hdel : user.status &&& userDeleted > 0)
    (_hlock : user.status &&& userLocked > 0 ∨
      user.status &&& userLockedLogin > 0) :
    ValidateUserStatus user = Except.error Err.userNotFound ∧
    Create env db r username password systemCode =
      (db, r, Except.error Err.userNotFound) := by
  have hv : ValidateUserStatus user = Except.error Err.userNotFound := by
    unfold ValidateUserStatus
    simp [hdel]
  refine ⟨hv, ?_⟩
  simp only [Create, hfind, hv]

/-- Witness for C10 at a user whose status 6 has the deleted bit 2 and the
locked bit 4 set. -/
theorem deleted_shadows_locked_witness :
    ValidateUserStatus ⟨7, 6, "x", 5⟩ = Except.error Err.userNotFound ∧
    Create envW ⟨[⟨7, "bob", "sys", 6, "x", 5, 0, 0, 0⟩], [], []⟩ rW
        "bob" "pw" "sys" =
      (⟨[⟨7, "bob", "sys", 6, "x", 5, 0, 0, 0⟩], [], []⟩, rW,
        Except.error Err.userNotFound) :=
  deleted_shadows_locked envW _ rW "bob" "pw" "sys" ⟨7, 6, "x", 5⟩
    rfl (by decide) (Or.inl (by decide))

/-- C5: a `Save` whose token already exists as a key in the session record
store returns `NonUniqueToken` before writing anything: the returned store is
the input store, so both the session records and the user-session index are
untouched. -/
theorem save_rejects_duplicate_token (env : Env) (r : Redis) (token : String)
    (session : SessionData)
    (hex : (r.kv token).isSome = true)
    (hf : env.faults.existsE token = none) :
    Save env r token session = (r, some Err.nonUniqueToken) := by
  unfold Save rexists
  rw [hf]
  simp [hex]

/-- Witness for C5: saving under the already-present key "TOK". -/
theorem save_rejects_duplicate_token_witness :
    Save envW rT "TOK" sdW = (rT, some Err.nonUniqueToken) :=
  save_rejects_duplicate_token envW rT "TOK" sdW (by decide) (by decide)

/-- C6: a `Create` whose password hash does not match the stored hash returns
`PasswordMismatch`; the relational store it returns is exactly the failed
`updateUser` result (the counter update persists), the key-value store is the
unchanged input (no session record and no index entry), and the audit table is
unchanged (no audit row). -/
theorem create_mismatch_persists_counter (env : Env) (db : DB) (r : Redis)
    (username password systemCode : String) (user : UserForAuth) (h : String)
    (hfind : GetUserForAuth db username systemCode = Except.ok user)
    (hstatus : ValidateUserStatus user = Except.ok ())
    (hhash : env.hash password user.created = Except.ok h)
    (hcmp : SecureCompare h user.storedPassword = false) :
    Create env db r username password systemCode =
      (updateUser db env.now user.userID false, r,
        Except.error Err.passwordMismatch) ∧
    (Create env db r username password systemCode).1.summaries =
      db.summaries := by
  have hc : Create env db r username password systemCode =
      (updateUser db env.now user.userID false, r,
        Except.error Err.passwordMismatch) := by
    simp only [Create, hfind, hstatus, hhash, hcmp, Bool.false_eq_true,
      not_false_eq_true, if_true, ite_true]
  refine ⟨hc, ?_⟩
  rw [hc]
  simp [updateUser]

/-- Witness for C6: a wrong password for the concrete user. -/
theorem create_mismatch_persists_counter_witness :
    Create envW dbW rW "alice" "bad" "sys" =
      (updateUser dbW (100 : Int) 42 false, rW,
        Except.error Err.passwordMismatch) ∧
    (Create envW dbW rW "alice" "bad" "sys").1.summaries = dbW.summaries :=
  create_mismatch_persists_counter envW dbW rW "alice" "bad" "sys"
    ⟨42, 0, "Pw1#1700", 1700⟩ "bad#1700" rfl rfl rfl (by decide)

/-- C4: `RefreshToken` on a present key rewrites the same key with `created`
set to the current time and the TTL reset to the full `sessionTTL` constant,
leaves the record's user id, roles and timeout unchanged, leaves every other
key — in particular the user-session index entry — unchanged, does not touch
the relational store (it is not even an input), and returns no new token. -/
theorem refresh_resets_created_only (env : Env) (r : Redis) (token : String)
    (d : SessionData) (ttl0 : Nat)
    (hkv : r.kv token = some (Val.sess d, ttl0))
    (hget : env.faults.getE token = none)
    (hset : env.faults.setE token = none) :
    ∃ r2, RefreshToken env r token = (r2, none) ∧
      r2.kv token =
        some (Val.sess { d with sess := { d.sess with created := env.now } },
          sessionTTL) ∧
      ∀ k, k ≠ token → r2.kv k = r.kv k := by
  unfold RefreshToken rgetBytes rget
  rw [hget, hkv]
  unfold rset
  rw [hset]
  simp only [Option.map_some, unmarshalSessionData, Option.isSome_none,
    Bool.false_eq_true, if_false]
  refine ⟨_, rfl, ?_, ?_⟩
  · simp
  · intro k hk
    simp [hk]

/-- Witness for C4: refreshing the concrete stored record. -/
theorem refresh_resets_created_only_witness :
    ∃ r2, RefreshToken envW rT "TOK" = (r2, none) ∧
      r2.kv "TOK" =
        some (Val.sess { sdW with sess := { sdW.sess with created := 100 } },
          sessionTTL) ∧
      ∀ k, k ≠ "TOK" → r2.kv k = rT.kv k :=
  refresh_resets_created_only envW rT "TOK" sdW 960 rfl rfl rfl

/-- C8 counterexample: `RefreshToken` on an absent token does NOT treat the
missing key as a non-error state — `Get(token).Bytes()` surfaces the
`redis.Nil` error and the function returns it, so the claim's Refresh clause
is false on the empty store. -/
theorem refresh_absent_token_errors_cx :
    (RefreshToken envW rW "TOK").2 = some Err.redisNil := rfl

/-- C8 as amended: `Delete` of an unknown or expired token succeeds as a
no-op and `DeleteAllByUserHash` with no index entry returns success with the
stores untouched, but `RefreshToken` of an absent token returns the store's
not-found error (`redis.Nil`) rather than succeeding. -/
theorem notfound_terminal_amended (env : Env) (db : DB) (r : Redis)
    (token userHashToken : String) (userID : Int)
    (hf : env.faults = noFaults)
    (htok : r.kv token = none) (huh : r.kv userHashToken = none) :
    Delete env db r token = (db, r, none) ∧
    DeleteAllByUserHash env db r userHashToken userID = (db, r, none) ∧
    (RefreshToken env r token).2 = some Err.redisNil := by
  refine ⟨?_, ?_, ?_⟩
  · simp only [Delete, GetSession, rget, hf, noFaults, htok, Option.map_none,
      zeroSession]
    rfl
  · simp only [DeleteAllByUserHash, rgetBytes, rget, hf, noFaults, huh]
    rfl
  · simp only [RefreshToken, rgetBytes, rget, hf, noFaults, htok]
    rfl

/-- Witness for the amended C8 on the empty store. -/
theorem notfound_terminal_amended_witness :
    Delete envW dbW rW "TOK" = (dbW, rW, none) ∧
    DeleteAllByUserHash envW dbW rW "42#1700" 42 = (dbW, rW, none) ∧
    (RefreshToken envW rW "TOK").2 = some Err.redisNil :=
  notfound_terminal_amended envW dbW rW "TOK" "42#1700" 42 rfl rfl rfl

/-- C9 is refuted by the source: when the store write of the refreshed record
fails, `RefreshToken` returns nil — its guard tests `Set(...).Err() != nil`
but returns the stale marshal error — leaving the record un-refreshed with no
error reported; and when deleting or rewriting the index entry inside
`Delete` fails, the error assigned to `err` is overwritten unchecked by the
next statement, so `Delete` reports success while the index entry survives as
an orphan.  Both are exhibited here on concrete stores with a single injected
store fault. -/
theorem store_errors_swallowed_bug :
    (RefreshToken envSetFail rT "TOK").2 = none ∧
    (RefreshToken envSetFail rT "TOK").1.kv "TOK" =
      some (Val.sess sdW, 960) ∧
    (Delete envDelFail dbW rT2 "TOK").2.2 = none ∧
    (Delete envDelFail dbW rT2 "TOK").2.1.kv "42#1700" =
      some (Val.idx usW, 960) :=
  ⟨rfl, rfl, rfl, rfl⟩

/-- One failed `Create` on a single-account database: the call takes the
password-mismatch path and the returned relational store records the failed
attempt through `updateUserRow`. -/
theorem create_fail_step (env : Env) (r : Redis)
    (username password systemCode : String) (u2 : UserRow) (h : String)
    (roles : List (Int × List (Int × String))) (sums : List SummaryRow)
    (huid : ¬ u2.userID = 0)
    (hun : u2.username = username) (hsc : u2.systemCode = systemCode)
    (hd : u2.status &&& userDeleted = 0)
    (hl : u2.status &&& userLocked = 0)
    (hll : u2.status &&& userLockedLogin = 0)
    (hhash : env.hash password u2.created = Except.ok h)
    (hcmp : SecureCompare h u2.password = false) :
    Create env ⟨[u2], roles, sums⟩ r username password systemCode =
      (⟨[updateUserRow env.now false u2], roles, sums⟩, r,
        Except.error Err.passwordMismatch) := by
  have hfind : GetUserForAuth ⟨[u2], roles, sums⟩ username systemCode =
      Except.ok ⟨u2.userID, u2.status, u2.password, u2.created⟩ := by
    unfold GetUserForAuth
    simp [hun, hsc, huid]
  have hv : ValidateUserStatus ⟨u2.userID, u2.status, u2.password, u2.created⟩ =
      Except.ok () := by
    unfold ValidateUserStatus
    simp [hd, hl, hll]
  have hc := create_mismatch_persists_counter env ⟨[u2], roles, sums⟩ r
    username password systemCode ⟨u2.userID, u2.status, u2.password, u2.created⟩
    h hfind hv hhash hcmp
  rw [hc.1]
  unfold updateUser
  simp

/-- The account state after `k ≤ 6` consecutive wrong-password `Create`
calls on an account starting with zero failed logins and no lock or deleted
bit: the failed-login counter equals `k` and the locked-by-failed-login bit
has been or-ed in exactly when `k` reached 6. -/
theorem createFailN_char (env : Env) (r : Redis)
    (username password systemCode : String) (u : UserRow) (h : String)
    (roles : List (Int × List (Int × String))) (sums : List SummaryRow)
    (huid : ¬ u.userID = 0)
    (hun : u.username = username) (hsc : u.systemCode = systemCode)
    (hd : u.status &&& userDeleted = 0)
    (hl : u.status &&& userLocked = 0)
    (hll : u.status &&& userLockedLogin = 0)
    (hfl : u.failedLogins = 0)
    (hhash : env.hash password u.created = Except.ok h)
    (hcmp : SecureCompare h u.password = false) :
    ∀ k, k ≤ 6 →
      createFailN env r username password systemCode k ⟨[u], roles, sums⟩ =
        ⟨[{ u with
            failedLogins := k,
            status := u.status ||| (if 6 ≤ k then userLockedLogin else 0) }],
          roles, sums⟩ := by
  intro k
  induction k with
  | zero =>
      intro _
      simp only [createFailN]
      cases u
      simp_all
  | succ k ih =>
      intro hk
      have hk6 : k ≤ 6 := by omega
      have hklt : ¬ 6 ≤ k := by omega
      simp only [createFailN]
      rw [ih hk6]
      rw [if_neg hklt, Nat.or_zero]
      have hstep := create_fail_step env r username password systemCode
        { u with failedLogins := k, status := u.status } h roles sums
        huid hun hsc hd hl hll hhash hcmp
      rw [hstep]
      unfold updateUserRow
      simp [maxLoginAttempts]

/-- C2: on an account starting with zero failed logins and no deleted or
lock bit, `N < 6` consecutive wrong-password `Create` calls leave the
locked-by-failed-login bit clear; the 6th consecutive failure sets it; and
once set, a `Create` with the correct password fails with the Locked error
instead of issuing a token. -/
theorem lockout_after_six_failures (env : Env) (r : Redis)
    (username wrongPw goodPw systemCode : String) (u : UserRow)
    (hw hg : String)
    (roles : List (Int × List (Int × String))) (sums : List SummaryRow)
    (huid : ¬ u.userID = 0)
    (hun : u.username = username) (hsc : u.systemCode = systemCode)
    (hd : u.status &&& userDeleted = 0)
    (hl : u.status &&& userLocked = 0)
    (hll : u.status &&& userLockedLogin = 0)
    (hfl : u.failedLogins = 0)
    (hhw : env.hash wrongPw u.created = Except.ok hw)
    (hcw : SecureCompare hw u.password = false)
    (_hhg : env.hash goodPw u.created = Except.ok hg)
    (_hcg : SecureCompare hg u.password = true) :
    (∀ N, N < 6 → ∀ w ∈ (createFailN env r username wrongPw systemCode N
        ⟨[u], roles, sums⟩).users, w.status &&& userLockedLogin = 0) ∧
    (∀ w ∈ (createFailN env r username wrongPw systemCode 6
        ⟨[u], roles, sums⟩).users, w.status &&& userLockedLogin ≠ 0) ∧
    (Create env (createFailN env r username wrongPw systemCode 6
        ⟨[u], roles, sums⟩) r username goodPw systemCode).2.2 =
      Except.error Err.userLocked := by
  have hchar := createFailN_char env r username wrongPw systemCode u hw
    roles sums huid hun hsc hd hl hll hfl hhw hcw
  refine ⟨?_, ?_, ?_⟩
  · intro N hN w hmem
    rw [hchar N (by omega)] at hmem
    have hNlt : ¬ 6 ≤ N := by omega
    rw [if_neg hNlt, Nat.or_zero] at hmem
    simp only [List.mem_singleton] at hmem
    subst hmem
    exact hll
  · intro w hmem
    rw [hchar 6 (by omega)] at hmem
    rw [if_pos (by omega)] at hmem
    simp only [List.mem_singleton] at hmem
    subst hmem
    simp only [userLockedLogin]
    rw [lor_sixteen_and_sixteen]
    omega
  · rw [hchar 6 (by omega), if_pos (by omega)]
    have hfind : GetUserForAuth ⟨[{ u with
        failedLogins := 6,
        status := u.status ||| userLockedLogin }], roles, sums⟩
        username systemCode =
        Except.ok ⟨u.userID, u.status ||| userLockedLogin, u.password,
          u.created⟩ := by
      unfold GetUserForAuth
      simp [hun, hsc, huid]
    have hv : ValidateUserStatus ⟨u.userID, u.status ||| userLockedLogin,
        u.password, u.created⟩ = Except.error Err.userLocked := by
      unfold ValidateUserStatus
      have h2 : (u.status ||| userLockedLogin) &&& userDeleted = 0 := by
        simpa [userLockedLogin, userDeleted] using
          lor_sixteen_and_two u.status (by simpa [userDeleted] using hd)
      have h16 : (u.status ||| userLockedLogin) &&& userLockedLogin = 16 := by
        simpa [userLockedLogin] using lor_sixteen_and_sixteen u.status
      simp [h2, h16]
    simp only [Create, hfind, hv]

/-- Witness for C2 at the concrete account, with `N = 3`. -/
theorem lockout_after_six_failures_witness :
    (∀ N, N < 6 → ∀ w ∈ (createFailN envW rW "alice" "bad" "sys" N
        ⟨[uW], [], []⟩).users, w.status &&& userLockedLogin = 0) ∧
    (∀ w ∈ (createFailN envW rW "alice" "bad" "sys" 6
        ⟨[uW], [], []⟩).users, w.status &&& userLockedLogin ≠ 0) ∧
    (Create envW (createFailN envW rW "alice" "bad" "sys" 6
        ⟨[uW], [], []⟩) rW "alice" "Pw1" "sys").2.2 =
      Except.error Err.userLocked :=
  lockout_after_six_failures envW rW "alice" "bad" "Pw1" "sys" uW
    "bad#1700" "Pw1#1700" [] [] (by decide) rfl rfl (by decide) (by decide)
    (by decide) (by decide) rfl (by decide) rfl (by decide)

/-! Helper lemmas about the audit-row closing map. -/

theorem closeRow_token (now : Int) (tok : String) (row : SummaryRow) :
    (closeRow now tok row).token = row.token := by
  unfold closeRow
  by_cases h : row.token = tok <;> simp [h]

theorem closeRow_preserves (now : Int) (tok t : String) (row : SummaryRow)
    (h : row.token = t → row.ended = some now ∧ row.hardLogout = true) :
    (closeRow now tok row).token = t →
      (closeRow now tok row).ended = some now ∧
      (closeRow now tok row).hardLogout = true := by
  unfold closeRow
  by_cases hrt : row.token = tok
  · simp [hrt]
  · simpa [hrt] using h

theorem closeRow_closes (now : Int) (tok : String) (row : SummaryRow)
    (h : row.token = tok) :
    (closeRow now tok row).ended = some now ∧
    (closeRow now tok row).hardLogout = true := by
  simp [closeRow, h]

/-- The clinician-cache eviction loop under a fault-free store: it reports no
error and its only effect is to delete `active_clinician_list` when the role
id 4 occurs in the list. -/
theorem evictClinician_char (env : Env) (hf : env.faults = noFaults) :
    ∀ (roles : List Int) (r : Redis),
      (evictClinician env roles r).2 = none ∧
      ∀ k, (evictClinician env roles r).1.kv k =
        if (4 : Int) ∈ roles ∧ k = keyActiveClinicianList then none
        else r.kv k := by
  intro roles
  induction roles with
  | nil =>
      intro r
      simp [evictClinician]
  | cons id rest ih =>
      intro r
      by_cases h4 : id = 4
      · subst h4
        have hstep : evictClinician env ((4 : Int) :: rest) r =
            evictClinician env rest
              ⟨fun k2 => if k2 = keyActiveClinicianList then none
                else r.kv k2⟩ := by
          simp [evictClinician, deleteKey, rdel, hf, noFaults]
        rw [hstep]
        obtain ⟨h1, h2⟩ := ih
          ⟨fun k2 => if k2 = keyActiveClinicianList then none else r.kv k2⟩
        refine ⟨h1, fun k => ?_⟩
        rw [h2 k]
        by_cases hk : k = keyActiveClinicianList
        · subst hk
          simp
        · simp [hk]
      · have hstep : evictClinician env (id :: rest) r =
            evictClinician env rest r := by
          simp [evictClinician, h4]
        rw [hstep]
        obtain ⟨h1, h2⟩ := ih r
        refine ⟨h1, fun k => ?_⟩
        rw [h2 k]
        have h4s : ¬ (4 : Int) = id := fun h => h4 h.symm
        simp [List.mem_cons, h4s]

/-- The main loop of `DeleteUserSessions` under a fault-free store: it counts
every element, deletes exactly the session keys of the list plus the
clinician cache key when some element carries role id 4, leaves the user rows
alone, preserves already-closed audit rows and closes the audit rows of every
token in the list. -/
theorem deleteSessionsLoop_char (env : Env) (hf : env.faults = noFaults) :
    ∀ (l : List UserSession) (db : DB) (r : Redis) (n : Nat),
      (deleteSessionsLoop env l db r n).2.2 = Except.ok (n + l.length) ∧
      (∀ k, (deleteSessionsLoop env l db r n).2.1.kv k =
        if (∃ s ∈ l, s.token = k) ∨
            ((∃ s ∈ l, (4 : Int) ∈ s.roles) ∧ k = keyActiveClinicianList)
          then none else r.kv k) ∧
      (∀ t, (∀ row ∈ db.summaries, row.token = t →
            row.ended = some env.now ∧ row.hardLogout = true) →
        ∀ row ∈ (deleteSessionsLoop env l db r n).1.summaries,
          row.token = t → row.ended = some env.now ∧ row.hardLogout = true) ∧
      (∀ s ∈ l, ∀ row ∈ (deleteSessionsLoop env l db r n).1.summaries,
        row.token = s.token →
        row.ended = some env.now ∧ row.hardLogout = true) := by
  intro l
  induction l with
  | nil =>
      intro db r n
      simp [deleteSessionsLoop]
  | cons s rest ih =>
      intro db r n
      have hdel : deleteKey env r s.token =
          (⟨fun k2 => if k2 = s.token then none else r.kv k2⟩, none) := by
        simp [deleteKey, rdel, hf, noFaults]
      obtain ⟨hev2, hevkv⟩ := evictClinician_char env hf s.roles
        ⟨fun k2 => if k2 = s.token then none else r.kv k2⟩
      rcases hevict : evictClinician env s.roles
        ⟨fun k2 => if k2 = s.token then none else r.kv k2⟩ with ⟨r2, e2⟩
      rw [hevict] at hev2 hevkv
      simp only at hev2 hevkv
      subst hev2
      have hstep : deleteSessionsLoop env (s :: rest) db r n =
          deleteSessionsLoop env rest
            (CloseSessionSummary db env.now s.token) r2 (n + 1) := by
        simp [deleteSessionsLoop, hdel, hevict]
      rw [hstep]
      obtain ⟨ih1, ih2, ih3, ih4⟩ :=
        ih (CloseSessionSummary db env.now s.token) r2 (n + 1)
      refine ⟨?_, ?_, ?_, ?_⟩
      · rw [ih1]
        congr 1
        simp [Nat.add_comm, Nat.add_assoc, Nat.add_left_comm]
      · intro k
        rw [ih2 k, hevkv k]
        by_cases hk1 : ∃ x ∈ rest, x.token = k
        · simp [hk1]
        · by_cases hk2 : k = s.token
          · subst hk2
            simp
          · by_cases hk3 : k = keyActiveClinicianList
            · subst hk3
              have hk2s : ¬ s.token = keyActiveClinicianList :=
                fun h => hk2 h.symm
              by_cases hc4 : (4 : Int) ∈ s.roles
              · simp [hc4]
              · by_cases hcr : ∃ x ∈ rest, (4 : Int) ∈ x.roles
                · simp [hk1, hc4, hcr, hk2s, hk2]
                · simp [hk1, hc4, hcr, hk2s, hk2]
            · have hk2s : ¬ s.token = k := fun h => hk2 h.symm
              simp [hk1, hk2, hk2s, hk3]
      · intro t hclosed
        refine ih3 t ?_
        intro row hrow hrt
        simp only [CloseSessionSummary, List.mem_map] at hrow
        obtain ⟨row0, hrow0, hmap⟩ := hrow
        subst hmap
        exact closeRow_preserves env.now s.token t row0 (hclosed row0 hrow0) hrt
      · intro x hx row hrow hrt
        rcases List.mem_cons.mp hx with hxs | hxrest
        · subst hxs
          refine ih3 x.token ?_ row hrow hrt
          intro row0 hrow0 hrt0
          simp only [CloseSessionSummary, List.mem_map] at hrow0
          obtain ⟨row1, _hrow1, hmap⟩ := hrow0
          subst hmap
          refine closeRow_closes env.now x.token row1 ?_
          rw [closeRow_token] at hrt0
          exact hrt0
        · exact ih4 x hxrest row hrow hrt

/-- C7: `DeleteUserSessions`, when every store operation succeeds, deletes
the session key of every element of the index list, deletes the global
`active_clinician_list` cache key when any element carries the clinician role
id 4, closes the audit row of every listed token, deletes the index key
itself, and returns a count equal to the length of the list. -/
theorem delete_user_sessions_bulk (env : Env) (db : DB) (r : Redis)
    (us : UserSessions) (hf : env.faults = noFaults) :
    ∃ db2 r2,
      DeleteUserSessions env db r us =
        (db2, r2, Except.ok us.sessions.length) ∧
      (∀ s ∈ us.sessions, r2.kv s.token = none) ∧
      ((∃ s ∈ us.sessions, (4 : Int) ∈ s.roles) →
        r2.kv keyActiveClinicianList = none) ∧
      r2.kv us.userIDHash = none ∧
      (∀ s ∈ us.sessions, ∀ row ∈ db2.summaries, row.token = s.token →
        row.ended = some env.now ∧ row.hardLogout = true) := by
  obtain ⟨h1, h2, _h3, h4⟩ := deleteSessionsLoop_char env hf us.sessions db r 0
  rcases hloop : deleteSessionsLoop env us.sessions db r 0 with ⟨db1, r1, res⟩
  rw [hloop] at h1 h2 h4
  simp only at h1 h2 h4
  subst h1
  have hres : DeleteUserSessions env db r us =
      (db1, ⟨fun k2 => if k2 = us.userIDHash then none else r1.kv k2⟩,
        Except.ok us.sessions.length) := by
    simp [DeleteUserSessions, hloop, deleteKey, rdel, hf, noFaults]
  refine ⟨db1, _, hres, ?_, ?_, ?_, ?_⟩
  · intro s hs
    by_cases hk : s.token = us.userIDHash
    · simp [hk]
    · have h2s := h2 s.token
      simp only [hk, if_false]
      rw [h2s]
      have : ∃ x ∈ us.sessions, x.token = s.token := ⟨s, hs, rfl⟩
      simp [this]
  · intro hcl
    by_cases hk : keyActiveClinicianList = us.userIDHash
    · simp [hk]
    · have h2s := h2 keyActiveClinicianList
      simp only [hk, if_false]
      rw [h2s]
      simp [hcl]
  · simp
  · exact h4

/-- Witness for C7: the two-session index entry of user 42, one of the
sessions carrying the clinician role. -/
theorem delete_user_sessions_bulk_witness :
    ∃ db2 r2,
      DeleteUserSessions envW dbW rT2 ⟨"42#1700", [⟨"TOK", [7]⟩]⟩ =
        (db2, r2, Except.ok 1) ∧
      (∀ s ∈ ([⟨"TOK", [7]⟩] : List UserSession), r2.kv s.token = none) ∧
      ((∃ s ∈ ([⟨"TOK", [7]⟩] : List UserSession), (4 : Int) ∈ s.roles) →
        r2.kv keyActiveClinicianList = none) ∧
      r2.kv "42#1700" = none ∧
      (∀ s ∈ ([⟨"TOK", [7]⟩] : List UserSession), ∀ row ∈ db2.summaries,
        row.token = s.token →
        row.ended = some (100 : Int) ∧ row.hardLogout = true) :=
  delete_user_sessions_bulk envW dbW rT2 ⟨"42#1700", [⟨"TOK", [7]⟩]⟩ rfl

theorem Delete_via (env : Env) (db : DB) (r : Redis) (T : String)
    (sess : Session) (us : UserSessions) (r1 : Redis)
    (hf : env.faults = noFaults)
    (hGS : GetSession env.faults r T = Except.ok sess)
    (huid : ¬ sess.userID = 0)
    (hFind : FindUserSessionsByAuthToken env db r T = Except.ok us)
    (hne : ¬ us.sessions.length = 0)
    (hrm : removeSessionFromUserSessions env r us T = (r1, none)) :
    Delete env db r T =
      (CloseSessionSummary db env.now sess.token,
       ⟨fun k2 => if k2 = T then none else r1.kv k2⟩, none) := by
  simp only [Delete, hGS, if_neg huid, hFind, ne_eq, hne, not_false_eq_true,
    if_true, ite_true, hrm]
  simp only [rdel, hf, noFaults]

theorem set_self {α : Type} :
    ∀ (l : List α) (i : Nat) (a : α), l[i]? = some a → l.set i a = l
  | [], _, _, h => by simp at h
  | x :: xs, 0, a, h => by
      simp at h
      simp [h]
  | x :: xs, i + 1, a, h => by
      simp at h
      simp [set_self xs i a h]

theorem swapElems_self (l : List UserSession) (i : Nat) (a : UserSession)
    (h : l[i]? = some a) : swapElems l i i = l := by
  simp only [swapElems, h]
  rw [List.set_set, set_self l i a h]

theorem rmStep_no_match (token : String) (n : Nat)
    (st : List UserSession × Nat) (i : Nat)
    (h : ∀ x, st.1[i]? = some x → ¬ x.token = token) :
    rmStep token n st i = st := by
  rcases hg : st.1[i]? with _ | x
  · simp only [rmStep, hg]
  · simp only [rmStep, hg]
    rw [if_neg (h x hg)]

theorem foldl_rmStep_no_match (token : String) (n : Nat) :
    ∀ (js : List Nat) (l : List UserSession) (m : Nat),
      (∀ j ∈ js, ∀ x, l[j]? = some x → ¬ x.token = token) →
      js.foldl (rmStep token n) (l, m) = (l, m)
  | [], l, m, _ => rfl
  | j :: js, l, m, h => by
      rw [List.foldl_cons, rmStep_no_match token n (l, m) j (h j (by simp))]
      exact foldl_rmStep_no_match token n js l m
        (fun j2 hj2 x hx => h j2 (by simp [hj2]) x hx)

theorem swapRemoveAll_last (A : List UserSession) (t : UserSession)
    (token : String) (ht : t.token = token)
    (hA : ∀ x ∈ A, ¬ x.token = token) :
    swapRemoveAll (A ++ [t]) token = A := by
  have hlen : (A ++ [t]).length = A.length + 1 := by simp
  simp only [swapRemoveAll, hlen]
  rw [List.range_succ, List.foldl_append]
  have h1 : (List.range A.length).foldl (rmStep token (A.length + 1))
      (A ++ [t], A.length + 1) = (A ++ [t], A.length + 1) := by
    apply foldl_rmStep_no_match
    intro j hj x hx
    have hjlt : j < A.length := List.mem_range.mp hj
    rw [List.getElem?_append, if_pos hjlt] at hx
    exact hA x (List.getElem?_mem hx)
  rw [h1]
  have hget : (A ++ [t])[A.length]? = some t := List.getElem?_concat_length A t
  simp only [List.foldl_cons, List.foldl_nil, rmStep, hget, ht, if_true,
    Nat.add_sub_cancel]
  rw [swapElems_self (A ++ [t]) A.length t hget]
  exact List.take_left A [t]

theorem swapRemoveAll_mid (A C : List UserSession) (b t : UserSession)
    (token : String) (ht : t.token = token)
    (hA : ∀ x ∈ A, ¬ x.token = token)
    (hC : ∀ x ∈ C, ¬ x.token = token)
    (_hb : ¬ b.token = token) :
    swapRemoveAll (A ++ t :: (C ++ [b])) token = A ++ b :: C := by
  have hlen : (A ++ t :: (C ++ [b])).length = A.length + 1 + C.length + 1 := by
    simp
    omega
  simp only [swapRemoveAll, hlen]
  rw [List.range_succ, List.range_add, List.range_succ]
  rw [List.foldl_append, List.foldl_append, List.foldl_append]
  -- stage A: indices below A.length never match
  have h1 : (List.range A.length).foldl
      (rmStep token (A.length + 1 + C.length + 1))
      (A ++ t :: (C ++ [b]), A.length + 1 + C.length + 1) =
      (A ++ t :: (C ++ [b]), A.length + 1 + C.length + 1) := by
    apply foldl_rmStep_no_match
    intro j hj x hx
    have hjlt : j < A.length := List.mem_range.mp hj
    rw [List.getElem?_append, if_pos hjlt] at hx
    exact hA x (List.getElem?_mem hx)
  rw [h1]
  -- stage B: the match at index A.length swaps t into the last slot
  have hgetT : (A ++ t :: (C ++ [b]))[A.length]? = some t := by
    rw [List.getElem?_append_right (Nat.le_refl A.length)]
    simp
  have hlen2 : (A ++ b :: C).length = A.length + 1 + C.length := by
    simp
    omega
  have hlen1 : (A ++ t :: C).length = A.length + 1 + C.length := by
    simp
    omega
  have hgetB : (A ++ t :: (C ++ [b]))[A.length + 1 + C.length]? = some b := by
    rw [show A ++ t :: (C ++ [b]) = (A ++ t :: C) ++ [b] by simp, ← hlen1]
    exact List.getElem?_concat_length _ b
  have hset1 : (A ++ t :: (C ++ [b])).set A.length b =
      A ++ b :: (C ++ [b]) := by
    rw [List.set_append]
    simp
  have hset2 : (A ++ b :: (C ++ [b])).set (A.length + 1 + C.length) t =
      A ++ b :: (C ++ [t]) := by
    rw [show A ++ b :: (C ++ [b]) = (A ++ b :: C) ++ [b] by simp,
      List.set_append, hlen2]
    simp
  have hstepB : rmStep token (A.length + 1 + C.length + 1)
      (A ++ t :: (C ++ [b]), A.length + 1 + C.length + 1) A.length =
      (A ++ b :: (C ++ [t]), A.length + 1 + C.length) := by
    simp only [rmStep, hgetT, ht, if_true, Nat.add_sub_cancel]
    simp only [swapElems, hgetT, hgetB, hset1, hset2]
  simp only [List.foldl_cons, List.foldl_nil, hstepB]
  -- stage C: indices A.length+1 .. A.length+C.length read C elements
  have h3 : (List.map (fun x => A.length + 1 + x) (List.range C.length)).foldl
      (rmStep token (A.length + 1 + C.length + 1))
      (A ++ b :: (C ++ [t]), A.length + 1 + C.length) =
      (A ++ b :: (C ++ [t]), A.length + 1 + C.length) := by
    apply foldl_rmStep_no_match
    intro j hj x hx
    simp only [List.mem_map, List.mem_range] at hj
    obtain ⟨x0, hx0, rfl⟩ := hj
    have hlen3 : (A ++ [b]).length = A.length + 1 := by simp
    rw [show A ++ b :: (C ++ [t]) = (A ++ [b]) ++ (C ++ [t]) by simp] at hx
    rw [List.getElem?_append_right (by rw [hlen3]; omega)] at hx
    rw [hlen3] at hx
    rw [show A.length + 1 + x0 - (A.length + 1) = x0 by omega] at hx
    rw [List.getElem?_append, if_pos hx0] at hx
    exact hC x (List.getElem?_mem hx)
  rw [h3]
  -- stage D: the token, now in the last slot, matches again as a no-op swap
  have hgetT2 : (A ++ b :: (C ++ [t]))[A.length + 1 + C.length]? = some t := by
    rw [show A ++ b :: (C ++ [t]) = (A ++ b :: C) ++ [t] by simp, ← hlen2]
    exact List.getElem?_concat_length _ t
  have hstepD : rmStep token (A.length + 1 + C.length + 1)
      (A ++ b :: (C ++ [t]), A.length + 1 + C.length)
      (A.length + 1 + C.length) =
      (A ++ b :: (C ++ [t]), A.length + 1 + C.length) := by
    simp only [rmStep, hgetT2, ht, if_true, Nat.add_sub_cancel]
    rw [swapElems_self _ _ t hgetT2]
  simp only [List.foldl_cons, List.foldl_nil, hstepD]
  rw [show A ++ b :: (C ++ [t]) = (A ++ b :: C) ++ [t] by simp, ← hlen2]
  exact List.take_left (A ++ b :: C) [t]

theorem GetSession_found (f : Faults) (r : Redis) (T : String)
    (d : SessionData) (ttl0 : Nat)
    (hg : f.getE T = none) (hkv : r.kv T = some (Val.sess d, ttl0)) :
    GetSession f r T = Except.ok { d.sess with token := T } := by
  simp [GetSession, rget, hg, hkv, unmarshalSessionData]

theorem FindUserSessions_found (env : Env) (db : DB) (r : Redis)
    (T uh : String) (d : SessionData) (ttl0 ttl1 : Nat) (urow : UserRow)
    (us : UserSessions)
    (hf : env.faults = noFaults)
    (hkvT : r.kv T = some (Val.sess d, ttl0))
    (huid : ¬ d.sess.userID = 0)
    (hurow : db.users.find? (fun u => u.userID = d.sess.userID) = some urow)
    (hhash : env.hash (toString d.sess.userID) urow.created = Except.ok uh)
    (hkvU : r.kv uh = some (Val.idx us, ttl1)) :
    FindUserSessionsByAuthToken env db r T = Except.ok us := by
  have hGS := GetSession_found env.faults r T d ttl0 (by rw [hf]; rfl) hkvT
  have hcreated : getUserCreatedByID db d.sess.userID = (urow.created, none) := by
    simp [getUserCreatedByID, hurow]
  simp only [FindUserSessionsByAuthToken, hGS, if_neg huid, hcreated,
    createSessionData, getUserHashToken, hhash]
  simp only [rgetBytes, rget, hf, noFaults, hkvU]
  rfl

theorem removeSession_empties (env : Env) (r : Redis) (us : UserSessions)
    (T uh : String) (t : UserSession)
    (hf : env.faults = noFaults) (hushash : us.userIDHash = uh)
    (hsess : us.sessions = [t]) (htT : t.token = T) :
    removeSessionFromUserSessions env r us T =
      (⟨fun k2 => if k2 = uh then none else r.kv k2⟩, none) := by
  have hswap : swapRemoveAll us.sessions T = [] := by
    rw [hsess]
    simpa using swapRemoveAll_last [] t T htT (by simp)
  simp [removeSessionFromUserSessions, hswap, hushash, rdel, hf, noFaults]

theorem removeSession_keeps (env : Env) (r : Redis) (us : UserSessions)
    (T uh : String) (t : UserSession) (A B2 : List UserSession)
    (hf : env.faults = noFaults) (hushash : us.userIDHash = uh)
    (hsess : us.sessions = A ++ t :: B2) (htT : t.token = T)
    (hA : ∀ x ∈ A, ¬ x.token = T) (hB : ∀ x ∈ B2, ¬ x.token = T)
    (hnotonly : ¬ (A = [] ∧ B2 = [])) :
    ∃ l2, removeSessionFromUserSessions env r us T =
      (⟨fun k2 => if k2 = uh then some (Val.idx ⟨uh, l2⟩, sessionTTL)
        else r.kv k2⟩, none) ∧
      (∀ x ∈ l2, ¬ x.token = T) ∧
      (∀ x, x ∈ A ∨ x ∈ B2 → x ∈ l2) ∧
      l2.length = A.length + B2.length := by
  rcases List.eq_nil_or_concat B2 with hBe | ⟨C, b, hBcat⟩
  · subst hBe
    have hAne : ¬ A = [] := fun hAe => hnotonly ⟨hAe, rfl⟩
    have hswap : swapRemoveAll us.sessions T = A := by
      rw [hsess]
      exact swapRemoveAll_last A t T htT hA
    have hlenne : ¬ ({ us with sessions := A } : UserSessions).sessions.length = 0 := by
      simpa using fun h => hAne (List.eq_nil_of_length_eq_zero h)
    refine ⟨A, ?_, hA, ?_, by simp⟩
    · have hus2 : ({ us with sessions := A } : UserSessions) = ⟨uh, A⟩ := by
        cases us
        simp_all
      simp only [removeSessionFromUserSessions, hswap, hlenne, if_neg hlenne]
      rw [hus2]
      simp only [rset, hf, noFaults]
      simp [hushash]
    · intro x hx
      rcases hx with hx | hx
      · exact hx
      · simp at hx
  · have hBcat2 : B2 = C ++ [b] := by simpa using hBcat
    subst hBcat2
    have hbmem : b ∈ C ++ [b] := by simp
    have hCmem : ∀ x ∈ C, x ∈ C ++ [b] := fun x hx => by simp [hx]
    have hswap : swapRemoveAll us.sessions T = A ++ b :: C := by
      rw [hsess]
      exact swapRemoveAll_mid A C b t T htT hA
        (fun x hx => hB x (hCmem x hx)) (hB b hbmem)
    have hlenne : ¬ (A ++ b :: C).length = 0 := by
      simp
    refine ⟨A ++ b :: C, ?_, ?_, ?_, ?_⟩
    · have hus2 : ({ us with sessions := A ++ b :: C } : UserSessions) =
          ⟨uh, A ++ b :: C⟩ := by
        rw [← hushash]
      simp only [removeSessionFromUserSessions, hswap, if_neg hlenne]
      rw [hus2]
      simp only [rset, hf, noFaults]
      simp [hushash]
    · intro x hx
      rcases List.mem_append.mp hx with hx | hx
      · exact hA x hx
      · rcases List.mem_cons.mp hx with hx | hx
        · subst hx
          exact hB x hbmem
        · exact hB x (hCmem x hx)
    · intro x hx
      rcases hx with hx | hx
      · exact List.mem_append.mpr (Or.inl hx)
      · rcases List.mem_append.mp hx with hx | hx
        · exact List.mem_append.mpr (Or.inr (List.mem_cons.mpr
            (Or.inr hx)))
        · simp at hx
          subst hx
          exact List.mem_append.mpr (Or.inr (List.mem_cons.mpr (Or.inl rfl)))
    · simp

/-- C3: `Delete` on a token with a live session record removes the session
record stored under that token; when the token was the only element of the
owner's user-session index entry the index key is deleted outright; when
other elements remain, the rewritten entry contains no element with the
deleted token, retains every other element, and has exactly one element
fewer.  The call reports no error.  The index list is given as
`A ++ t :: B` with the token occurring exactly once, at `t`. -/
theorem delete_removes_exactly_token (env : Env) (db : DB) (r : Redis)
    (T uh : String) (d : SessionData) (ttl0 ttl1 : Nat) (urow : UserRow)
    (us : UserSessions) (A B : List UserSession) (t : UserSession)
    (hf : env.faults = noFaults)
    (hkvT : r.kv T = some (Val.sess d, ttl0))
    (huid : ¬ d.sess.userID = 0)
    (hurow : db.users.find? (fun u => u.userID = d.sess.userID) = some urow)
    (hhash : env.hash (toString d.sess.userID) urow.created = Except.ok uh)
    (hneq : ¬ uh = T)
    (hkvU : r.kv uh = some (Val.idx us, ttl1))
    (hushash : us.userIDHash = uh)
    (hdecomp : us.sessions = A ++ t :: B)
    (htT : t.token = T)
    (hA : ∀ x ∈ A, ¬ x.token = T)
    (hB : ∀ x ∈ B, ¬ x.token = T) :
    ∃ db2 r2, Delete env db r T = (db2, r2, none) ∧
      r2.kv T = none ∧
      (A = [] ∧ B = [] → r2.kv uh = none) ∧
      (¬ (A = [] ∧ B = []) → ∃ l2,
        r2.kv uh = some (Val.idx ⟨uh, l2⟩, sessionTTL) ∧
        (∀ x ∈ l2, ¬ x.token = T) ∧
        (∀ x, x ∈ A ∨ x ∈ B → x ∈ l2) ∧
        l2.length = A.length + B.length) := by
  have hGS := GetSession_found env.faults r T d ttl0 (by rw [hf]; rfl) hkvT
  have hFind := FindUserSessions_found env db r T uh d ttl0 ttl1 urow us hf
    hkvT huid hurow hhash hkvU
  have hne : ¬ us.sessions.length = 0 := by
    rw [hdecomp]
    simp
  have hsid : ¬ ({ d.sess with token := T } : Session).userID = 0 := huid
  by_cases honly : A = [] ∧ B = []
  · obtain ⟨hAe, hBe⟩ := honly
    subst hAe
    subst hBe
    have hrm := removeSession_empties env r us T uh t hf hushash
      (by simpa using hdecomp) htT
    have hdel := Delete_via env db r T _ us _ hf hGS hsid hFind hne hrm
    refine ⟨_, _, hdel, ?_, ?_, ?_⟩
    · simp
    · intro _
      simp [hneq]
    · intro hcon
      exact absurd ⟨rfl, rfl⟩ hcon
  · obtain ⟨l2, hrm, hl2a, hl2b, hl2len⟩ := removeSession_keeps env r us T uh
      t A B hf hushash hdecomp htT hA hB honly
    have hdel := Delete_via env db r T _ us _ hf hGS hsid hFind hne hrm
    refine ⟨_, _, hdel, ?_, ?_, ?_⟩
    · simp
    · intro h
      exact absurd h honly
    · intro _
      exact ⟨l2, by simp [hneq], hl2a, hl2b, hl2len⟩

theorem Save_fresh (env : Env) (r : Redis) (T uh : String)
    (sd : SessionData) (rl : List Int)
    (hf : env.faults = noFaults)
    (hfresh : r.kv T = none)
    (huh2 : getUserHashToken env sd = Except.ok uh)
    (hneq : ¬ uh = T)
    (hroles2 : rolesListOf sd.sess.roles = Except.ok rl) :
    ∃ r2, Save env r T sd = (r2, none) ∧
      r2.kv T = some (Val.sess sd, sessionTTL) := by
  have hex : rexists env.faults r T = (0, none) := by
    simp [rexists, hf, noFaults, hfresh]
  have hset1 : rset env.faults r T (Val.sess sd) sessionTTL =
      (⟨fun k2 => if k2 = T then some (Val.sess sd, sessionTTL)
        else r.kv k2⟩, none) := by
    simp [rset, hf, noFaults]
  rcases hcase : r.kv uh with _ | v
  · have heq : Save env r T sd =
        (⟨fun k2 => if k2 = uh
            then some (Val.idx ⟨uh, [⟨T, rl⟩]⟩, sessionTTL)
            else if k2 = T then some (Val.sess sd, sessionTTL)
            else r.kv k2⟩, none) := by
      simp only [Save, hex, hset1, huh2, hroles2]
      simp only [rgetBytes, rget, hf, noFaults, hcase]
      simp only [if_neg hneq]
      simp [rset, noFaults, zeroUserSessions]
    refine ⟨_, heq, ?_⟩
    have hneqs : ¬ T = uh := fun hh => hneq hh.symm
    simp [hneqs]
  · have heq : Save env r T sd =
        (⟨fun k2 => if k2 = uh
            then some (Val.idx { unmarshalUserSessions v.1 with
              sessions := (unmarshalUserSessions v.1).sessions ++ [⟨T, rl⟩] },
              sessionTTL)
            else if k2 = T then some (Val.sess sd, sessionTTL)
            else r.kv k2⟩, none) := by
      simp only [Save, hex, hset1, huh2, hroles2]
      simp only [rgetBytes, rget, hf, noFaults, hcase]
      simp only [if_neg hneq]
      simp [rset, noFaults]
    refine ⟨_, heq, ?_⟩
    have hneqs : ¬ T = uh := fun hh => hneq hh.symm
    simp [hneqs]

/-- C1: `Create` with valid, matching credentials for an unlocked,
non-deleted user returns the minted token `T`, and loading the session
record stored under key `T` yields exactly the user id and the roles map
that were read for that user at creation (with `created = now` and the full
TTL).  The hypotheses state that the credential row resolves, status
validation passes, the supplied password hashes to the stored hash, token
minting succeeds with a fresh token distinct from the index hash key, and
the role-id keys of the roles map parse back to integers (true of every map
built by `getUserRoles`). -/
theorem create_roundtrip (env : Env) (db : DB) (r : Redis)
    (username password systemCode : String) (user : UserForAuth)
    (h T uh : String) (rl : List Int)
    (hf : env.faults = noFaults)
    (hfind : GetUserForAuth db username systemCode = Except.ok user)
    (hstatus : ValidateUserStatus user = Except.ok ())
    (hhash : env.hash password user.created = Except.ok h)
    (hcmp : SecureCompare h user.storedPassword = true)
    (hmk : env.mkToken
      (newSessionData env.now user (getUserRoles db user.userID)) =
      Except.ok T)
    (hfresh : r.kv T = none)
    (huh : env.hash (toString user.userID) user.created = Except.ok uh)
    (hneq : ¬ uh = T)
    (hroles : rolesListOf (getUserRoles db user.userID) = Except.ok rl) :
    ∃ db2 r2,
      Create env db r username password systemCode =
        (db2, r2, Except.ok T) ∧
      GetSession noFaults r2 T = Except.ok
        { userID := user.userID, roles := getUserRoles db user.userID,
          created := env.now, timeout := Int.ofNat sessionTTL, token := T } := by
  have huh2 : getUserHashToken env
      (newSessionData env.now user (getUserRoles db user.userID)) =
      Except.ok uh := by
    simp only [getUserHashToken, newSessionData]
    exact huh
  have hroles2 : rolesListOf
      (newSessionData env.now user (getUserRoles db user.userID)).sess.roles =
      Except.ok rl := by
    simp only [newSessionData]
    exact hroles
  obtain ⟨r2, hSave, hr2T⟩ :=
    Save_fresh env r T uh _ rl hf hfresh huh2 hneq hroles2
  have hctsd : CreateTokenAndSessionData env db user =
      Except.ok (T, newSessionData env.now user (getUserRoles db user.userID)) := by
    simp only [CreateTokenAndSessionData, hmk]
  have hCreate : Create env db r username password systemCode =
      (CreateSessionSummary (updateUser db env.now user.userID true) env.now T
        (newSessionData env.now user (getUserRoles db user.userID)),
        r2, Except.ok T) := by
    simp only [Create, hfind, hstatus, hhash, hcmp, hctsd, hSave]
    simp
  refine ⟨_, r2, hCreate, ?_⟩
  simp only [GetSession, rget, noFaults, hr2T]
  simp [unmarshalSessionData, newSessionData]

/-- Witness for C3: deleting session "T1" of user 42, whose index entry also
holds "T2"; afterwards "T1" is gone and the rewritten entry keeps "T2". -/
theorem delete_removes_exactly_token_witness :
    ∃ db2 r2, Delete envW dbW rC3 "T1" = (db2, r2, none) ∧
      r2.kv "T1" = none ∧
      (([] : List UserSession) = [] ∧
        ([⟨"T2", [7]⟩] : List UserSession) = [] → r2.kv "42#1700" = none) ∧
      (¬ (([] : List UserSession) = [] ∧
          ([⟨"T2", [7]⟩] : List UserSession) = []) → ∃ l2,
        r2.kv "42#1700" = some (Val.idx ⟨"42#1700", l2⟩, sessionTTL) ∧
        (∀ x ∈ l2, ¬ x.token = "T1") ∧
        (∀ x : UserSession, x ∈ ([] : List UserSession) ∨
          x ∈ ([⟨"T2", [7]⟩] : List UserSession) → x ∈ l2) ∧
        l2.length = ([] : List UserSession).length +
          ([⟨"T2", [7]⟩] : List UserSession).length) :=
  delete_removes_exactly_token envW dbW rC3 "T1" "42#1700" sdW 960 960 uW
    usC3 [] [⟨"T2", [7]⟩] ⟨"T1", [7]⟩ rfl rfl (by decide) rfl rfl
    (by decide) rfl rfl rfl rfl (by simp) (by decide)

/-- Witness for C1: a full successful login of the concrete user and the
round-trip read of the stored session record. -/
theorem create_roundtrip_witness :
    ∃ db2 r2,
      Create envW dbW rW "alice" "Pw1" "sys" = (db2, r2, Except.ok "TOK") ∧
      GetSession noFaults r2 "TOK" = Except.ok
        { userID := 42, roles := getUserRoles dbW 42,
          created := 100, timeout := Int.ofNat sessionTTL, token := "TOK" } :=
  create_roundtrip envW dbW rW "alice" "Pw1" "sys" ⟨42, 0, "Pw1#1700", 1700⟩
    "Pw1#1700" "TOK" "42#1700" [4, 7] rfl rfl rfl rfl (by decide) rfl rfl
    rfl (by decide) (by rfl)

end Sessions
